import Mathlib

/-!
Verification of the lox-interpreter front end: a shallow embedding of the
nom-based lexer (`src/tokens.rs`) and of the expression tree with its
`print`/`eval` contract (`src/ast.rs`), together with theorems settling the
specification's claims about them.

Modelling conventions:
* Rust `f64`/`f32` values are modelled by `F`, exact rationals extended with
  `inf`, `negInf` and `nan`; IEEE comparison semantics (everything involving
  `nan` compares false under `==`, `<`, `<=`, ...) are preserved, while
  binary rounding of arithmetic and of decimal literals is not modelled
  (arithmetic is exact over `ℚ`; no negative zero).
* A Rust panic (`unreachable!`, non-exhaustive match, `.unwrap()` on `Err`)
  is modelled as an error value: `Except.error EvalError.unreachableCode`
  for the evaluator, `none` for `scan_line`.
* nom parsers are functions `List Char → PR α`; `PR.err` models
  `nom::Err::Error` (recoverable, `alt` tries the next branch) and `PR.fail`
  models `nom::Err::Failure` (produced by `cut`, aborts `alt` and `many0`).
-/

/-- Result of a nom-style parser over the remaining input: success with a
value and the rest of the input, a recoverable error (`nom::Err::Error`), or
an unrecoverable failure (`nom::Err::Failure`, produced by `cut`). -/
inductive PR (α : Type) where
  | ok (val : α) (rest : List Char)
  | err
  | fail
deriving DecidableEq

/-- Sequencing of parser results: on success continue with the value and the
rest of the input; errors and failures propagate. -/
def PR.bind {α β : Type} : PR α → (α → List Char → PR β) → PR β
  | .ok a rest, f => f a rest
  | .err, _ => .err
  | .fail, _ => .fail

/-- nom's `alt`: on a recoverable error try the next branch; a `Failure`
aborts the alternation immediately. -/
def PR.orElse {α : Type} : PR α → (Unit → PR α) → PR α
  | .ok a rest, _ => .ok a rest
  | .err, f => f ()
  | .fail, _ => .fail

/-- `nom::bytes::complete::tag`: succeeds iff `t` is a prefix of the input,
consuming it. -/
def tag (t : List Char) (input : List Char) : PR (List Char) :=
  if t.isPrefixOf input then .ok t (input.drop t.length) else .err

/-- `nom::bytes::complete::tag_no_case`: like `tag` but ASCII
case-insensitive. -/
def tag_no_case (t : List Char) (input : List Char) : PR (List Char) :=
  let pre := input.take t.length
  if pre.length = t.length ∧ pre.map Char.toLower = t.map Char.toLower then
    .ok pre (input.drop t.length)
  else .err

/-- `nom::character::complete::alpha1`: one or more ASCII letters. -/
def alpha1 (input : List Char) : PR (List Char) :=
  let t := input.takeWhile Char.isAlpha
  if t.isEmpty then .err else .ok t (input.dropWhile Char.isAlpha)

/-- `nom::character::complete::alphanumeric0`: zero or more ASCII
alphanumeric characters (never fails). -/
def alphanumeric0 (input : List Char) : PR (List Char) :=
  .ok (input.takeWhile Char.isAlphanum) (input.dropWhile Char.isAlphanum)

/-- `nom::character::complete::digit1`: one or more ASCII digits. -/
def digit1 (input : List Char) : PR (List Char) :=
  let t := input.takeWhile Char.isDigit
  if t.isEmpty then .err else .ok t (input.dropWhile Char.isDigit)

/-- The character class consumed by `nom::character::complete::multispace0`:
space, tab, carriage return, line feed. -/
def isMultispace (c : Char) : Bool :=
  c = ' ' || c = '\t' || c = '\r' || c = '\n'

/-- `multispace0` never fails; we model it as the function returning the
input with its whitespace prefix dropped. -/
def multispace0 (input : List Char) : List Char :=
  input.dropWhile isMultispace

/-- `nom::bytes::complete::is_not(set)` for the one-character set `c`: one or
more characters different from `c`. -/
def is_not (c : Char) (input : List Char) : PR (List Char) :=
  let t := input.takeWhile (fun x => x != c)
  if t.isEmpty then .err else .ok t (input.dropWhile (fun x => x != c))

/-- Model of an IEEE-754 double: an exact rational, or one of the special
values `inf`, `negInf`, `nan`. Binary rounding and negative zero are not
modelled; comparison semantics involving the special values are. -/
inductive F where
  | num (q : ℚ)
  | inf
  | negInf
  | nan
deriving DecidableEq

/-- IEEE negation (Rust unary `-` on `f64`). -/
def F.neg : F → F
  | .num q => .num (-q)
  | .inf => .negInf
  | .negInf => .inf
  | .nan => .nan

/-- IEEE addition over the model (exact on finite values). -/
def F.add : F → F → F
  | .nan, _ => .nan
  | _, .nan => .nan
  | .num a, .num b => .num (a + b)
  | .inf, .negInf => .nan
  | .negInf, .inf => .nan
  | .inf, _ => .inf
  | _, .inf => .inf
  | .negInf, _ => .negInf
  | _, .negInf => .negInf

/-- IEEE subtraction, as addition of the negation. -/
def F.sub (a b : F) : F := F.add a (F.neg b)

/-- IEEE multiplication over the model (exact on finite values;
`0 * inf = nan`). -/
def F.mul : F → F → F
  | .nan, _ => .nan
  | _, .nan => .nan
  | .num a, .num b => .num (a * b)
  | .num a, .inf => if a = 0 then .nan else if 0 < a then .inf else .negInf
  | .num a, .negInf => if a = 0 then .nan else if 0 < a then .negInf else .inf
  | .inf, .num b => if b = 0 then .nan else if 0 < b then .inf else .negInf
  | .negInf, .num b => if b = 0 then .nan else if 0 < b then .negInf else .inf
  | .inf, .inf => .inf
  | .negInf, .negInf => .inf
  | .inf, .negInf => .negInf
  | .negInf, .inf => .negInf

/-- IEEE division over the model: division of a nonzero finite value by zero
yields a signed infinity, `0 / 0` yields `nan` (exact on finite values;
negative zero is not modelled so `x / inf = 0`). -/
def F.div : F → F → F
  | .nan, _ => .nan
  | _, .nan => .nan
  | .num a, .num b =>
    if b = 0 then (if a = 0 then .nan else if 0 < a then .inf else .negInf)
    else .num (a / b)
  | .num _, .inf => .num 0
  | .num _, .negInf => .num 0
  | .inf, .num b => if 0 ≤ b then .inf else .negInf
  | .negInf, .num b => if 0 ≤ b then .negInf else .inf
  | .inf, .inf => .nan
  | .inf, .negInf => .nan
  | .negInf, .inf => .nan
  | .negInf, .negInf => .nan

/-- IEEE equality (Rust `==` on `f64`): `nan` is equal to nothing, including
itself. -/
def F.beq : F → F → Bool
  | .num a, .num b => decide (a = b)
  | .inf, .inf => true
  | .negInf, .negInf => true
  | _, _ => false

/-- IEEE strict less-than (Rust `<` on `f64`): any comparison involving
`nan` is false. -/
def F.lt : F → F → Bool
  | .nan, _ => false
  | _, .nan => false
  | .num a, .num b => decide (a < b)
  | .num _, .inf => true
  | .num _, .negInf => false
  | .inf, _ => false
  | .negInf, .negInf => false
  | .negInf, _ => true

/-- IEEE less-than-or-equal (Rust `<=` on `f64`). -/
def F.le (a b : F) : Bool := F.lt a b || F.beq a b

/-- IEEE greater-than (Rust `>` on `f64`). -/
def F.gt (a b : F) : Bool := F.lt b a

/-- IEEE greater-than-or-equal (Rust `>=` on `f64`). -/
def F.ge (a b : F) : Bool := F.le b a

/-- Decimal rendering of the model value, standing in for Rust's
`f32::to_string`/`f64::to_string`. It coincides with Rust on the integral
values the claims exercise; the shortest-round-trip decimal formatting of
non-integral floats is not modelled. -/
def qToString (q : ℚ) : String :=
  if q.den = 1 then toString q.num
  else toString q.num ++ "/" ++ toString q.den

/-- Rendering of an `F` value, matching Rust's `to_string` on the special
values. -/
def fToString : F → String
  | .num q => qToString q
  | .inf => "inf"
  | .negInf => "-inf"
  | .nan => "NaN"

/-- The token discriminants of `src/tokens.rs` (`enum TokenType`). -/
inductive TokenType where
  | LeftParen | RightParen | LeftBrace | RightBrace | Comma | Dot | Minus
  | Plus | Semicolon | Slash | Star
  | Bang | BangEqual | Equal | EqualEqual | Greater | GreaterEqual | Less
  | LessEqual
  | Identifier | String | Number
  | And | Class | Else | False | Fun | For | If | Nil | Or | Print | Return
  | Super | This | True | Var | While
  | Eof
deriving DecidableEq

/-- `struct Token` of `src/tokens.rs`: a discriminant plus the lexeme text,
literal text and (always-zero placeholder) line number. -/
structure Token where
  tokenType : TokenType
  lexeme : String
  literal : String
  line : Nat
deriving DecidableEq

/-- `comment`: `delimited(tag("//"), is_not("\n"), tag("\n"))` — two slashes,
at least one non-newline character, then a newline; yields the comment
body. -/
def comment (input : List Char) : PR (List Char) :=
  (tag ['/', '/'] input).bind fun _ r1 =>
  (is_not '\n' r1).bind fun body r2 =>
  (tag ['\n'] r2).bind fun _ r3 =>
  .ok body r3

/-- `single_char_token`: `alt` over the twelve single-character tags,
classified by an exact match on the consumed lexeme. -/
def single_char_token (input : List Char) : PR Token :=
  let p :=
    PR.orElse (tag ['('] input) fun _ =>
    PR.orElse (tag [')'] input) fun _ =>
    PR.orElse (tag ['\x7b'] input) fun _ =>
    PR.orElse (tag ['\x7d'] input) fun _ =>
    PR.orElse (tag [','] input) fun _ =>
    PR.orElse (tag ['.'] input) fun _ =>
    PR.orElse (tag ['-'] input) fun _ =>
    PR.orElse (tag ['+'] input) fun _ =>
    PR.orElse (tag [';'] input) fun _ =>
    PR.orElse (tag ['/'] input) fun _ =>
    PR.orElse (tag ['*'] input) fun _ =>
    tag ['='] input
  p.bind fun lexeme rest =>
    match lexeme with
    | ['('] => .ok ⟨.LeftParen, "(", "", 0⟩ rest
    | [')'] => .ok ⟨.RightParen, ")", "", 0⟩ rest
    | ['\x7b'] => .ok ⟨.LeftBrace, "\x7b", "", 0⟩ rest
    | ['\x7d'] => .ok ⟨.RightBrace, "\x7d", "", 0⟩ rest
    | [','] => .ok ⟨.Comma, ",", "", 0⟩ rest
    | ['.'] => .ok ⟨.Dot, ".", "", 0⟩ rest
    | ['-'] => .ok ⟨.Minus, "-", "", 0⟩ rest
    | ['+'] => .ok ⟨.Plus, "+", "", 0⟩ rest
    | [';'] => .ok ⟨.Semicolon, ";", "", 0⟩ rest
    | ['/'] => .ok ⟨.Slash, "/", "", 0⟩ rest
    | ['*'] => .ok ⟨.Star, "*", "", 0⟩ rest
    | ['='] => .ok ⟨.Equal, "=", "", 0⟩ rest
    | _ => .fail

/-- `two_char_token`: `alt((tag("!="), tag("=="), tag("<="), tag(">=")))`,
classified by an exact match on the consumed lexeme. -/
def two_char_token (input : List Char) : PR Token :=
  let p :=
    PR.orElse (tag ['!', '='] input) fun _ =>
    PR.orElse (tag ['=', '='] input) fun _ =>
    PR.orElse (tag ['<', '='] input) fun _ =>
    tag ['>', '='] input
  p.bind fun lexeme rest =>
    match lexeme with
    | ['!', '='] => .ok ⟨.BangEqual, "!=", "", 0⟩ rest
    | ['=', '='] => .ok ⟨.EqualEqual, "==", "", 0⟩ rest
    | ['<', '='] => .ok ⟨.LessEqual, "<=", "", 0⟩ rest
    | ['>', '='] => .ok ⟨.GreaterEqual, ">=", "", 0⟩ rest
    | _ => .fail

/-- `identifier`: `(alpha1, alphanumeric0)` — a letter run followed by an
alphanumeric run, concatenated into the lexeme. -/
def identifier (input : List Char) : PR Token :=
  (alpha1 input).bind fun start r1 =>
  (alphanumeric0 r1).bind fun rest r2 =>
  .ok ⟨.Identifier, start.asString ++ rest.asString, "", 0⟩ r2

/-- `string`: `delimited(tag("\""), is_not("\""), tag("\""))` — a
double-quoted run of at least one non-quote character; lexeme and literal
are the body. An unterminated string makes the trailing `tag` fail, so the
whole rule fails recoverably. -/
def string (input : List Char) : PR Token :=
  (tag ['"'] input).bind fun _ r1 =>
  (is_not '"' r1).bind fun lexeme r2 =>
  (tag ['"'] r2).bind fun _ r3 =>
  .ok ⟨.String, lexeme.asString, lexeme.asString, 0⟩ r3

/-- The keyword table of `keyword` in `src/tokens.rs`. -/
def keywordType (s : String) : Option TokenType :=
  match s with
  | "and" => some .And
  | "class" => some .Class
  | "else" => some .Else
  | "false" => some .False
  | "fun" => some .Fun
  | "for" => some .For
  | "if" => some .If
  | "nil" => some .Nil
  | "or" => some .Or
  | "print" => some .Print
  | "return" => some .Return
  | "super" => some .Super
  | "this" => some .This
  | "true" => some .True
  | "var" => some .Var
  | "while" => some .While
  | _ => none

/-- `keyword`: consume a maximal letter run with `alpha1` and classify it by
exact match against the keyword table; a non-keyword run is a recoverable
error. Because `alpha1` is maximal-munch, keyword matching is whole-token:
`andfunc` never matches the keyword `and`. -/
def keyword (input : List Char) : PR Token :=
  (alpha1 input).bind fun lexeme rest =>
    match keywordType lexeme.asString with
    | some tt => .ok ⟨tt, lexeme.asString, "", 0⟩ rest
    | none => .err

/-- Numeric value of a digit run. -/
def digitsNat (l : List Char) : Nat :=
  l.foldl (fun acc c => 10 * acc + (c.toNat - 48)) 0

/-- Exact value of a recognized floating-point literal: `±m · 10^e`.
The lexer's value model — kept in integer mantissa/exponent form so the
decimal rendering (the token's lexeme) stays in integer arithmetic. -/
structure Dec where
  neg : Bool
  m : Nat
  e : Int
deriving DecidableEq

/-- The result of `nom::number::complete::float`: a recognized decimal, or
one of the `inf`/`nan` exceptional literals. (Rust then rounds the decimal
to the nearest `f32`; the claims only exercise values on which the exact
decimal and the float agree.) -/
inductive FloatVal where
  | val (d : Dec)
  | inf
  | nan
deriving DecidableEq

/-- Decimal rendering of `m · 10^e`, matching Rust's `f32::to_string` on the
short exact decimals the claims exercise (integer values print with no
point, fractional values print their digits with trailing zeros
stripped). -/
def decRender (m : Nat) (e : Int) : String :=
  if 0 ≤ e then toString (m * 10 ^ e.toNat)
  else
    let k := (-e).toNat
    let ip := m / 10 ^ k
    let fp := m % 10 ^ k
    if fp = 0 then toString ip
    else
      let s := toString fp
      let padded := String.mk (List.replicate (k - s.length) '0') ++ s
      toString ip ++ "." ++ String.mk (padded.data.reverse.dropWhile (· = '0')).reverse

/-- Rendering of a parsed float value (Rust's `to_string` on the parsed
`f32`, which becomes the Number token's lexeme and literal). -/
def FloatVal.render : FloatVal → String
  | .val d => (if d.neg then "-" else "") ++ decRender d.m d.e
  | .inf => "inf"
  | .nan => "NaN"

/-- Optional leading sign, as in nom's `recognize_float`:
`opt(alt((char('+'), char('-'))))`. Returns whether the sign is negative and
the rest of the input. -/
def float_sign (input : List Char) : Bool × List Char :=
  match input with
  | '+' :: t => (false, t)
  | '-' :: t => (true, t)
  | _ => (false, input)

/-- Mantissa of `recognize_float`:
`alt(((digit1, opt((char('.'), opt(digit1)))), (char('.'), digit1)))`.
Returns the mantissa digits as an integer together with the number of
fraction digits. -/
def float_mantissa (input : List Char) : PR (Nat × Nat) :=
  match digit1 input with
  | .ok ds r1 =>
    (match r1 with
     | '.' :: r2 =>
       let fs := r2.takeWhile Char.isDigit
       .ok (digitsNat ds * 10 ^ fs.length + digitsNat fs, fs.length)
         (r2.dropWhile Char.isDigit)
     | _ => .ok (digitsNat ds, 0) r1)
  | _ =>
    match input with
    | '.' :: r2 =>
      (digit1 r2).bind fun fs r3 =>
        .ok (digitsNat fs, fs.length) r3
    | _ => .err

/-- Exponent of `recognize_float`:
`opt((alt((char('e'), char('E'))), opt(sign), cut(digit1)))`. The `cut`
means an `e`/`E` that is not followed by digits is a nom `Failure`, which
aborts the surrounding `alt` and `many0` (and so makes `scan_line`'s
`.unwrap()` panic). -/
def float_exponent (input : List Char) : PR Int :=
  match input with
  | c :: r1 =>
    if c = 'e' || c = 'E' then
      let s := float_sign r1
      match digit1 s.2 with
      | .ok es r3 =>
        .ok (if s.1 then -(digitsNat es : Int) else (digitsNat es : Int)) r3
      | _ => .fail
    else .ok 0 input
  | [] => .ok 0 input

/-- nom's `recognize_float`, fused with the value computation that the
source performs via `str::parse` on the recognized slice: an optional sign,
a mantissa, and an optional exponent. -/
def recognize_float (input : List Char) : PR Dec :=
  let s := float_sign input
  (float_mantissa s.2).bind fun mf r2 =>
  (float_exponent r2).bind fun e r3 =>
  .ok ⟨s.1, mf.1, e - (mf.2 : Int)⟩ r3

/-- `nom::number::complete::float`: `recognize_float`, with the literals
`nan`, `inf` and `infinity` (ASCII case-insensitive) accepted as fallbacks,
as in nom's `recognize_float_or_exceptions`. A `Failure` from the exponent
`cut` aborts the alternation. -/
def float (input : List Char) : PR FloatVal :=
  match recognize_float input with
  | .ok d r => .ok (.val d) r
  | .fail => .fail
  | .err =>
    match tag_no_case ['n', 'a', 'n'] input with
    | .ok _ r => .ok .nan r
    | _ =>
      match tag_no_case ['i', 'n', 'f'] input with
      | .ok _ r => .ok .inf r
      | _ =>
        match tag_no_case ['i', 'n', 'f', 'i', 'n', 'i', 't', 'y'] input with
        | .ok _ r => .ok .inf r
        | _ => .err

/-- `number`: parse a float and store its rendering as both lexeme and
literal (`lexeme.to_string()` in the source, where `lexeme` is the parsed
`f32`). Note that `float` consumes an optional leading sign. -/
def number (input : List Char) : PR Token :=
  (float input).bind fun v rest =>
  .ok ⟨.Number, v.render, v.render, 0⟩ rest

/-- The `ws` combinator of `src/parsers.rs`:
`delimited(multispace0, inner, multispace0)` — leading and trailing
whitespace around the inner parser is consumed and discarded. -/
def ws (inner : List Char → PR Token) (input : List Char) : PR Token :=
  (inner (multispace0 input)).bind fun t rest =>
  .ok t (multispace0 rest)

/-- The token alternation of `scan_line`:
`alt(ws_separated!((keyword, identifier, number, string, two_char_token,
single_char_token)))` — each rule wrapped in `ws`, tried in this order. -/
def token_alt (input : List Char) : PR Token :=
  PR.orElse (ws keyword input) fun _ =>
  PR.orElse (ws identifier input) fun _ =>
  PR.orElse (ws number input) fun _ =>
  PR.orElse (ws string input) fun _ =>
  PR.orElse (ws two_char_token input) fun _ =>
  ws single_char_token input

/-- nom's `many0` applied to `token_alt`: repeat until a recoverable error,
propagating a `Failure`. nom's guard against a zero-length match (which
would make `many0` loop) returns an error, modelled by the length check; the
`fuel` parameter only bounds the recursion and `input.length + 1` is always
sufficient because every iteration consumes at least one character. -/
def many0_tokens (fuel : Nat) (input : List Char) : PR (List Token) :=
  match fuel with
  | 0 => .err
  | fuel + 1 =>
    match token_alt input with
    | .err => .ok [] input
    | .fail => .fail
    | .ok t rest =>
      if rest.length < input.length then
        match many0_tokens fuel rest with
        | .ok ts r => .ok (t :: ts) r
        | .err => .err
        | .fail => .fail
      else .err

/-- `scan_line` of `src/tokens.rs`: if the whole input parses as a comment
line, return the empty token list (before the Eof push); otherwise run the
token loop, append the Eof token, and return — silently discarding any
unconsumed remainder. The source calls `.unwrap()` on the `many0` result,
so a nom `Failure` (or the zero-length-match guard) is a panic, modelled as
`none`. -/
def scan_line (input : String) : Option (List Token) :=
  match comment input.data with
  | .ok _ _ => some []
  | _ =>
    match many0_tokens (input.data.length + 1) input.data with
    | .ok tokens _ => some (tokens ++ [⟨.Eof, "", "", 0⟩])
    | _ => none

/-! ## The expression tree of `src/ast.rs` -/

/-- The expression node variants of `src/ast.rs` (`Binary`, `Grouping`,
`StringLiteral`, `NumberLiteral`, `BooleanLiteral`, `Logical`, `Unary`),
closed into one inductive as the trait-object tree is in the source.
Operator fields hold the token discriminant, as the source's `Token`
values do. Number literals hold the `F` model of their `f64` value. -/
inductive Expr where
  | Binary (lhs : Expr) (op : TokenType) (rhs : Expr)
  | Grouping (expr : Expr)
  | StringLiteral (value : String)
  | NumberLiteral (value : F)
  | BooleanLiteral (value : Bool)
  | Logical (left : Expr) (operator : TokenType) (right : Expr)
  | Unary (operator : TokenType) (right : Expr)
deriving DecidableEq

/-- The evaluator's only failure mode: reaching a `unreachable!` arm or a
non-exhaustive match in the source, i.e. a Rust panic that aborts the
process. The source has no recoverable error value. -/
inductive EvalError where
  | unreachableCode
deriving DecidableEq

/-- `eval` of `src/ast.rs`: post-order reduction of a tree to a literal
node. Literals evaluate to themselves; `Grouping` is transparent; `Binary`
requires two Number operands and applies `+ - * /`; `Logical` requires two
Number operands and applies `!= == > >= < <=` — where, as in the source,
both the `Less` and the `LessEqual` arm compute `l_val.value <= r_val.value`;
`Unary` negates a Number under `Minus` and inverts a Boolean under `Bang`.
Every other combination hits `unreachable!` (or a non-exhaustive match) in
the source and is modelled as `Except.error EvalError.unreachableCode`. -/
def eval : Expr → Except EvalError Expr
  | .Binary lhs op rhs =>
    match eval lhs, eval rhs with
    | .ok (.NumberLiteral l), .ok (.NumberLiteral r) =>
      (match op with
       | .Plus => .ok (.NumberLiteral (F.add l r))
       | .Minus => .ok (.NumberLiteral (F.sub l r))
       | .Star => .ok (.NumberLiteral (F.mul l r))
       | .Slash => .ok (.NumberLiteral (F.div l r))
       | _ => .error .unreachableCode)
    | .error e, _ => .error e
    | _, .error e => .error e
    | _, _ => .error .unreachableCode
  | .Grouping e => eval e
  | .StringLiteral v => .ok (.StringLiteral v)
  | .NumberLiteral v => .ok (.NumberLiteral v)
  | .BooleanLiteral v => .ok (.BooleanLiteral v)
  | .Logical left op right =>
    match eval left, eval right with
    | .ok (.NumberLiteral l), .ok (.NumberLiteral r) =>
      (match op with
       | .BangEqual => .ok (.BooleanLiteral (!(F.beq l r)))
       | .EqualEqual => .ok (.BooleanLiteral (F.beq l r))
       | .Greater => .ok (.BooleanLiteral (F.gt l r))
       | .GreaterEqual => .ok (.BooleanLiteral (F.ge l r))
       | .Less => .ok (.BooleanLiteral (F.le l r))
       | .LessEqual => .ok (.BooleanLiteral (F.le l r))
       | _ => .error .unreachableCode)
    | .error e, _ => .error e
    | _, .error e => .error e
    | _, _ => .error .unreachableCode
  | .Unary op right =>
    match eval right with
    | .ok (.NumberLiteral v) =>
      (match op with
       | .Minus => .ok (.NumberLiteral (F.neg v))
       | _ => .error .unreachableCode)
    | .ok (.BooleanLiteral v) =>
      (match op with
       | .Bang => .ok (.BooleanLiteral (!v))
       | _ => .error .unreachableCode)
    | .error e => .error e
    | .ok _ => .error .unreachableCode

/-- The operator table of `Binary::print`: `+ - * /`, anything else is
`unreachable!`. -/
def binOpStr : TokenType → Option String
  | .Plus => some "+"
  | .Minus => some "-"
  | .Star => some "*"
  | .Slash => some "/"
  | _ => none

/-- The operator table of `Logical::print`: `== >= <= > <`, anything else —
including `BangEqual`, which `Logical::eval` does handle — is
`unreachable!`. -/
def logicalOpStr : TokenType → Option String
  | .EqualEqual => some "=="
  | .GreaterEqual => some ">="
  | .LessEqual => some "<="
  | .Greater => some ">"
  | .Less => some "<"
  | _ => none

/-- The operator table of `Unary::print`: `! -`, anything else is
`unreachable!`. -/
def unaryOpStr : TokenType → Option String
  | .Bang => some "!"
  | .Minus => some "-"
  | _ => none

/-- `print` of `src/ast.rs`: the purely structural textual reconstruction.
`Binary` is `"{} {} {}"` of left, operator, right; `Grouping` wraps in
parentheses; literals print their value; `Unary` is the operator, a space,
then the operand. `Logical` formats the operator with `"{} {:?} {}"` — the
`{:?}` is Rust `Debug` formatting of the `&str`, which wraps the operator
symbol in double quotes. A `unreachable!` in an operator table is modelled
as `none`; the operator lookup happens before the children are printed,
as in the source. -/
def print : Expr → Option String
  | .Binary lhs op rhs =>
    (binOpStr op).bind fun o =>
    (print lhs).bind fun ls =>
    (print rhs).map fun rs => ls ++ " " ++ o ++ " " ++ rs
  | .Grouping e => (print e).map fun s => "(" ++ s ++ ")"
  | .StringLiteral v => some v
  | .NumberLiteral v => some (fToString v)
  | .BooleanLiteral v => some (if v then "true" else "false")
  | .Logical left op right =>
    (logicalOpStr op).bind fun o =>
    (print left).bind fun ls =>
    (print right).map fun rs => ls ++ " \"" ++ o ++ "\" " ++ rs
  | .Unary op right =>
    (unaryOpStr op).bind fun o =>
    (print right).map fun s => o ++ " " ++ s

/-- Number of nodes of an expression tree; each recursive call of `eval`
is on a child, so the recursion depth is bounded by `size`. -/
def size : Expr → Nat
  | .Binary lhs _ rhs => 1 + size lhs + size rhs
  | .Grouping e => 1 + size e
  | .StringLiteral _ => 1
  | .NumberLiteral _ => 1
  | .BooleanLiteral _ => 1
  | .Logical left _ right => 1 + size left + size right
  | .Unary _ right => 1 + size right

/-- `eval` with an explicit recursion budget: `none` when the budget is
exhausted, otherwise exactly the branches of `eval` with the budget
decremented at every recursive call. Used to state termination of the
evaluator: a budget of `size e` always suffices. -/
def evalFuel : Nat → Expr → Option (Except EvalError Expr)
  | 0, _ => none
  | fuel + 1, e =>
    match e with
    | .Binary lhs op rhs =>
      (evalFuel fuel lhs).bind fun lv =>
      (evalFuel fuel rhs).map fun rv =>
        (match lv, rv with
         | .ok (.NumberLiteral l), .ok (.NumberLiteral r) =>
           (match op with
            | .Plus => .ok (.NumberLiteral (F.add l r))
            | .Minus => .ok (.NumberLiteral (F.sub l r))
            | .Star => .ok (.NumberLiteral (F.mul l r))
            | .Slash => .ok (.NumberLiteral (F.div l r))
            | _ => .error .unreachableCode)
         | .error err, _ => .error err
         | _, .error err => .error err
         | _, _ => .error .unreachableCode)
    | .Grouping g => evalFuel fuel g
    | .StringLiteral v => some (.ok (.StringLiteral v))
    | .NumberLiteral v => some (.ok (.NumberLiteral v))
    | .BooleanLiteral v => some (.ok (.BooleanLiteral v))
    | .Logical left op right =>
      (evalFuel fuel left).bind fun lv =>
      (evalFuel fuel right).map fun rv =>
        (match lv, rv with
         | .ok (.NumberLiteral l), .ok (.NumberLiteral r) =>
           (match op with
            | .BangEqual => .ok (.BooleanLiteral (!(F.beq l r)))
            | .EqualEqual => .ok (.BooleanLiteral (F.beq l r))
            | .Greater => .ok (.BooleanLiteral (F.gt l r))
            | .GreaterEqual => .ok (.BooleanLiteral (F.ge l r))
            | .Less => .ok (.BooleanLiteral (F.le l r))
            | .LessEqual => .ok (.BooleanLiteral (F.le l r))
            | _ => .error .unreachableCode)
         | .error err, _ => .error err
         | _, .error err => .error err
         | _, _ => .error .unreachableCode)
    | .Unary op right =>
      (evalFuel fuel right).map fun rv =>
        (match rv with
         | .ok (.NumberLiteral v) =>
           (match op with
            | .Minus => .ok (.NumberLiteral (F.neg v))
            | _ => .error .unreachableCode)
         | .ok (.BooleanLiteral v) =>
           (match op with
            | .Bang => .ok (.BooleanLiteral (!v))
            | _ => .error .unreachableCode)
         | .error err => .error err
         | .ok _ => .error .unreachableCode)

/-! Sanity checks mirroring the source's unit tests and the behaviours
the claims turn on. -/

example : F.le (.num 1) (.num 1) = true := by decide
example : F.le .nan .nan = false := by decide
example : F.lt (.num 1) (.num 1) = false := by decide
example : F.div (.num 1) (.num 0) = .inf := by decide
example : F.div (.num 0) (.num 0) = .nan := by decide
example : F.div (.num (-3)) (.num 0) = .negInf := by decide

example : keyword "and".data = .ok ⟨.And, "and", "", 0⟩ [] := by decide
example : keyword "invalid".data = .err := by decide
example : identifier "myVariable123".data
    = .ok ⟨.Identifier, "myVariable123", "", 0⟩ [] := by decide
example : comment "// This is a comment\n".data
    = .ok " This is a comment".data [] := by decide

example : number "123.45".data = .ok ⟨.Number, "123.45", "123.45", 0⟩ [] := by decide
example : number "10".data = .ok ⟨.Number, "10", "10", 0⟩ [] := by decide
example : number "+2".data = .ok ⟨.Number, "2", "2", 0⟩ [] := by decide
example : number "-2;".data = .ok ⟨.Number, "-2", "-2", 0⟩ [';'] := by decide
example : number "1e".data = .fail := by decide
example : number "1e2".data = .ok ⟨.Number, "100", "100", 0⟩ [] := by decide
example : number "1.50x".data = .ok ⟨.Number, "1.5", "1.5", 0⟩ ['x'] := by decide

example : scan_line "var andx = 10;"
    = some [⟨.Var, "var", "", 0⟩, ⟨.Identifier, "andx", "", 0⟩,
            ⟨.Equal, "=", "", 0⟩, ⟨.Number, "10", "10", 0⟩,
            ⟨.Semicolon, ";", "", 0⟩, ⟨.Eof, "", "", 0⟩] := by decide
example : scan_line "// a comment\n" = some [] := by decide
example : scan_line "1e" = none := by decide
example : scan_line "" = some [⟨.Eof, "", "", 0⟩] := by decide

example :
    eval (.Unary .Bang (.BooleanLiteral true)) = .ok (.BooleanLiteral false) := rfl
example :
    eval (.Grouping (.StringLiteral "s")) = .ok (.StringLiteral "s") := rfl
example :
    eval (.Binary (.StringLiteral "s") .Plus (.NumberLiteral (.num 1)))
      = .error .unreachableCode := rfl
example :
    print (.Unary .Minus (.Grouping (.Binary (.StringLiteral "a") .Slash
      (.StringLiteral "b")))) = some "- (a / b)" := rfl
example :
    print (.Logical (.StringLiteral "a") .LessEqual (.StringLiteral "b"))
      = some "a \"<=\" b" := rfl

/-! ## Scanner lemmas for the comment fast path -/

theorem tag_eq_ok {pat input v r : List Char} (h : tag pat input = .ok v r) :
    v = pat ∧ input = pat ++ r := by
  unfold tag at h
  by_cases hp : pat.isPrefixOf input = true
  · rw [if_pos hp] at h
    obtain ⟨u, hu⟩ := List.isPrefixOf_iff_prefix.mp hp
    simp only [PR.ok.injEq] at h
    refine ⟨h.1.symm, ?_⟩
    rw [← h.2, ← hu, List.drop_left]
  · rw [if_neg hp] at h
    exact absurd h (by simp)

theorem is_not_eq_ok {c : Char} {input v r : List Char}
    (h : is_not c input = .ok v r) :
    v = input.takeWhile (fun x => x != c) ∧
    r = input.dropWhile (fun x => x != c) ∧ v ≠ [] := by
  unfold is_not at h
  by_cases he : (input.takeWhile (fun x => x != c)).isEmpty = true
  · rw [if_pos he] at h
    exact absurd h (by simp)
  · rw [if_neg he] at h
    simp only [PR.ok.injEq] at h
    refine ⟨h.1.symm, h.2.symm, ?_⟩
    rw [h.1] at he
    simpa [List.isEmpty_iff] using he

theorem takeWhile_append_stop {mid rest : List Char} {c : Char} (h2 : c ∉ mid) :
    (mid ++ c :: rest).takeWhile (fun x => x != c) = mid ∧
    (mid ++ c :: rest).dropWhile (fun x => x != c) = c :: rest := by
  induction mid with
  | nil => simp
  | cons x xs ih =>
    have hx : x ≠ c := fun hh => h2 (hh ▸ List.mem_cons_self x xs)
    have hrec := ih (fun hm => h2 (List.mem_cons_of_mem _ hm))
    simp [List.takeWhile_cons, List.dropWhile_cons, hx, hrec.1, hrec.2]

theorem is_not_append {c : Char} {mid rest : List Char} (h1 : mid ≠ [])
    (h2 : c ∉ mid) : is_not c (mid ++ c :: rest) = .ok mid (c :: rest) := by
  unfold is_not
  rw [(takeWhile_append_stop h2).1, (takeWhile_append_stop h2).2]
  simp [h1]

theorem tag_cons_self {c : Char} (t : List Char) :
    tag [c] (c :: t) = .ok [c] t := by
  simp [tag, List.isPrefixOf]

theorem tag_slash_slash (t : List Char) :
    tag ['/', '/'] ('/' :: '/' :: t) = .ok ['/', '/'] t := by
  simp [tag, List.isPrefixOf]

theorem comment_of_comment_shape (mid rest : List Char) (h1 : mid ≠ [])
    (h2 : '\n' ∉ mid) :
    comment ('/' :: '/' :: (mid ++ '\n' :: rest)) = .ok mid rest := by
  unfold comment
  rw [tag_slash_slash]
  simp only [PR.bind]
  rw [is_not_append h1 h2]
  simp only [PR.bind]
  rw [tag_cons_self]

theorem comment_ok_shape {input b r : List Char} (h : comment input = .ok b r) :
    ∃ mid rest, mid ≠ [] ∧ '\n' ∉ mid ∧
      input = '/' :: '/' :: (mid ++ '\n' :: rest) := by
  unfold comment at h
  cases h1 : tag ['/', '/'] input with
  | err => rw [h1] at h; simp [PR.bind] at h
  | fail => rw [h1] at h; simp [PR.bind] at h
  | ok v1 t =>
    rw [h1] at h
    simp only [PR.bind] at h
    obtain ⟨hv1, hinput⟩ := tag_eq_ok h1
    cases h2 : is_not '\n' t with
    | err => rw [h2] at h; simp [PR.bind] at h
    | fail => rw [h2] at h; simp [PR.bind] at h
    | ok mid dw =>
      rw [h2] at h
      simp only [PR.bind] at h
      obtain ⟨hmid, hdw, hne⟩ := is_not_eq_ok h2
      cases h3 : tag ['\n'] dw with
      | err => rw [h3] at h; simp [PR.bind] at h
      | fail => rw [h3] at h; simp [PR.bind] at h
      | ok v3 rest =>
        obtain ⟨hv3, hdw2⟩ := tag_eq_ok h3
        refine ⟨mid, rest, hne, ?_, ?_⟩
        · intro hmem
          have := List.mem_takeWhile_imp (hmid ▸ hmem)
          simp at this
        · have hts : t = mid ++ dw := by
            rw [hmid, hdw]
            exact (List.takeWhile_append_dropWhile _ _).symm
          rw [hinput, hts, hdw2]
          simp

/-! ## Claims -/

/-- Claim C1: evaluating a `Logical` node with operator `<=` over
`NumberLiteral(a)` and `NumberLiteral(b)` returns `Boolean true` iff
`a <= b` in the IEEE double ordering — including the boundary case `a == b`
(on which `F.le` holds). -/
theorem C1_logical_lessEqual_iff_le (a b : F) :
    eval (.Logical (.NumberLiteral a) .LessEqual (.NumberLiteral b))
      = .ok (.BooleanLiteral true) ↔ F.le a b = true := by
  cases h : F.le a b <;> simp [eval, h]

/-- Claim C2: for all doubles `a`, `b`, the `Logical` node with operator `<`
evaluates to exactly the same result as the one with operator `<=` over the
same operands — the source maps both `Token::Less` and `Token::LessEqual`
to `l_val.value <= r_val.value`. -/
theorem C2_less_same_as_lessEqual (a b : F) :
    eval (.Logical (.NumberLiteral a) .Less (.NumberLiteral b))
      = eval (.Logical (.NumberLiteral a) .LessEqual (.NumberLiteral b)) := rfl

/-- Claim C3: for all finite doubles `a`, `b`, the `Binary` node computes
the arithmetic result of `+ - * /` as an ordinary Number — never an error —
and division by zero yields `inf`/`negInf` for a nonzero dividend and `nan`
for `0 / 0`, per the `F.div` model of IEEE division. -/
theorem C3_binary_arithmetic (a b : ℚ) :
    eval (.Binary (.NumberLiteral (.num a)) .Plus (.NumberLiteral (.num b)))
        = .ok (.NumberLiteral (.num (a + b))) ∧
    eval (.Binary (.NumberLiteral (.num a)) .Minus (.NumberLiteral (.num b)))
        = .ok (.NumberLiteral (.num (a - b))) ∧
    eval (.Binary (.NumberLiteral (.num a)) .Star (.NumberLiteral (.num b)))
        = .ok (.NumberLiteral (.num (a * b))) ∧
    eval (.Binary (.NumberLiteral (.num a)) .Slash (.NumberLiteral (.num b)))
        = .ok (.NumberLiteral (F.div (.num a) (.num b))) ∧
    F.div (.num a) (.num b)
        = (if b = 0 then (if a = 0 then F.nan else if 0 < a then F.inf else F.negInf)
           else F.num (a / b)) := by
  refine ⟨?_, ?_, ?_, rfl, rfl⟩
  · rfl
  · show Except.ok (Expr.NumberLiteral (F.add (.num a) (F.neg (.num b)))) = _
    simp [F.add, F.neg, sub_eq_add_neg]
  · rfl

/-- Claim C7, counterexample: applying `+` to a String literal and a Number
literal does not produce a recoverable type-mismatch error — it reaches the
`unreachable!` arm of `Binary::eval`, i.e. a process-aborting panic,
modelled as `EvalError.unreachableCode`. -/
theorem C7_counterexample :
    eval (.Binary (.StringLiteral "a") .Plus (.NumberLiteral (.num 1)))
      = .error .unreachableCode := rfl

/-- Claim C7 as amended: evaluating a `Binary` `+` node over a String and a
Number operand (in either order) neither coerces nor concatenates; it hits
the `unreachable!` branch — a process abort, not a recoverable error
value. -/
theorem C7_string_plus_number_panics (s : String) (v : F) :
    eval (.Binary (.StringLiteral s) .Plus (.NumberLiteral v))
        = .error .unreachableCode ∧
    eval (.Binary (.NumberLiteral v) .Plus (.StringLiteral s))
        = .error .unreachableCode := ⟨rfl, rfl⟩

/-- Claim C8, counterexample: `Logical::print` formats its operator with
`{:?}` (Rust `Debug`), so the rendering of a `<=` node wraps the operator in
double quotes instead of being the plain infix reconstruction. -/
theorem C8_counterexample :
    print (.Logical (.StringLiteral "a") .LessEqual (.StringLiteral "b"))
        = some "a \"<=\" b" ∧
    ("a \"<=\" b" : String) ≠ "a <= b" := ⟨rfl, by decide⟩

/-- Claim C8 as amended: `Grouping` renders as parentheses around its child,
`Unary` as its operator symbol, one space, then the operand, and `Binary` as
the plain infix `left op right`; but `Logical` renders its operator wrapped
in double quotes (`Debug` formatting), e.g. `a "<=" b`. Rendering is purely
structural — it never evaluates a subtree. -/
theorem C8_render_shape (e l r : Expr) :
    (∀ s, print e = some s → print (.Grouping e) = some ("(" ++ s ++ ")")) ∧
    (∀ s, print e = some s →
       print (.Unary .Bang e) = some ("! " ++ s) ∧
       print (.Unary .Minus e) = some ("- " ++ s)) ∧
    (∀ ls rs, print l = some ls → print r = some rs →
       print (.Binary l .Plus r) = some (ls ++ " + " ++ rs) ∧
       print (.Binary l .Minus r) = some (ls ++ " - " ++ rs) ∧
       print (.Binary l .Star r) = some (ls ++ " * " ++ rs) ∧
       print (.Binary l .Slash r) = some (ls ++ " / " ++ rs) ∧
       print (.Logical l .EqualEqual r) = some (ls ++ " \"==\" " ++ rs) ∧
       print (.Logical l .GreaterEqual r) = some (ls ++ " \">=\" " ++ rs) ∧
       print (.Logical l .LessEqual r) = some (ls ++ " \"<=\" " ++ rs) ∧
       print (.Logical l .Greater r) = some (ls ++ " \">\" " ++ rs) ∧
       print (.Logical l .Less r) = some (ls ++ " \"<\" " ++ rs)) := by
  refine ⟨fun s hs => ?_, fun s hs => ⟨?_, ?_⟩, fun ls rs hl hr => ?_⟩
  · simp [print, hs]
  · simp only [print, unaryOpStr, hs, Option.bind_some, Option.map_some,
      Option.some.injEq, String.append_assoc]
    rfl
  · simp only [print, unaryOpStr, hs, Option.bind_some, Option.map_some,
      Option.some.injEq, String.append_assoc]
    rfl
  · refine ⟨?_, ?_, ?_, ?_, ?_, ?_, ?_, ?_, ?_⟩ <;>
      · simp only [print, binOpStr, logicalOpStr, hl, hr, Option.bind_some,
          Option.map_some, Option.some.injEq, String.append_assoc]
        rfl

/-- Claim C8 witness: the amended rendering equations at concrete string
literals. -/
theorem C8_render_shape_witness :
    print (.Grouping (.StringLiteral "x")) = some "(x)" ∧
    print (.Binary (.StringLiteral "a") .Plus (.StringLiteral "b"))
      = some "a + b" :=
  ⟨(C8_render_shape (.StringLiteral "x") (.StringLiteral "a")
      (.StringLiteral "b")).1 "x" rfl,
   ((C8_render_shape (.StringLiteral "x") (.StringLiteral "a")
      (.StringLiteral "b")).2.2 "a" "b" rfl rfl).1⟩

/-- Claim C9: evaluation of every finite expression tree terminates — a
recursion budget of the tree's node count always suffices, because every
recursive call of `eval` is on a strict subtree. -/
theorem C9_eval_terminates (e : Expr) (fuel : Nat) (h : size e ≤ fuel) :
    evalFuel fuel e = some (eval e) := by
  induction e generalizing fuel with
  | Binary l op r ihl ihr =>
    cases fuel with
    | zero => simp [size] at h
    | succ n =>
      have h1 : size l ≤ n := by simp [size] at h; omega
      have h2 : size r ≤ n := by simp [size] at h; omega
      simp [evalFuel, eval, ihl n h1, ihr n h2]
  | Grouping g ih =>
    cases fuel with
    | zero => simp [size] at h
    | succ n =>
      have h1 : size g ≤ n := by simp [size] at h; omega
      simp [evalFuel, eval, ih n h1]
  | StringLiteral v =>
    cases fuel with
    | zero => simp [size] at h
    | succ n => rfl
  | NumberLiteral v =>
    cases fuel with
    | zero => simp [size] at h
    | succ n => rfl
  | BooleanLiteral v =>
    cases fuel with
    | zero => simp [size] at h
    | succ n => rfl
  | Logical l op r ihl ihr =>
    cases fuel with
    | zero => simp [size] at h
    | succ n =>
      have h1 : size l ≤ n := by simp [size] at h; omega
      have h2 : size r ≤ n := by simp [size] at h; omega
      simp [evalFuel, eval, ihl n h1, ihr n h2]
  | Unary op r ih =>
    cases fuel with
    | zero => simp [size] at h
    | succ n =>
      have h1 : size r ≤ n := by simp [size] at h; omega
      simp [evalFuel, eval, ih n h1]

/-- Claim C4, counterexample: scanning the unterminated string input
`"abc` (an opening quote with no closing quote) does not produce a lexical
error: `scan_line` succeeds, returning only the Eof token — the unconsumed
remainder is silently discarded. -/
theorem C4_counterexample :
    scan_line "\"abc" = some [⟨.Eof, "", "", 0⟩] := by decide

/-- Claim C4 as amended: an unterminated string literal is not reported at
all. The `string` rule fails recoverably (no panic), any tokens scanned
before it are kept, the Eof token is appended, and the unconsumed remainder
— here the whole `"abc` — is silently discarded. -/
theorem C4_unterminated_string_discarded :
    scan_line "var \"abc"
      = some [⟨.Var, "var", "", 0⟩, ⟨.Eof, "", "", 0⟩] := by decide

/-- Claim C5, counterexample: scanning `1+2` does not yield
`Number(1), Plus, Number(2)`. nom's `float` consumes an optional leading
sign and the `number` rule is tried before `single_char_token`, so the `+`
is absorbed as the sign of the second literal: the output is
`Number(1), Number(2), Eof` with no Plus token at all. -/
theorem C5_counterexample :
    scan_line "1+2"
        = some [⟨.Number, "1", "1", 0⟩, ⟨.Number, "2", "2", 0⟩,
                ⟨.Eof, "", "", 0⟩] ∧
    scan_line "1+2"
        ≠ some [⟨.Number, "1", "1", 0⟩, ⟨.Plus, "+", "", 0⟩,
                ⟨.Number, "2", "2", 0⟩, ⟨.Eof, "", "", 0⟩] ∧
    ([⟨.Number, "1", "1", 0⟩, ⟨.Number, "2", "2", 0⟩,
      ⟨.Eof, "", "", 0⟩] : List Token).all
        (fun t => t.tokenType != TokenType.Plus) = true := by
  refine ⟨by decide, by decide, by decide⟩

/-- Claim C5 as amended: the lexer does consume a sign character directly
preceding digits as part of the numeric literal (`1-2` scans as
`Number(1), Number(-2), Eof`); an operator token is produced only when the
character is not the start of a parsable number, as in `1 + 2`. -/
theorem C5_sign_consumed_by_number :
    scan_line "1-2"
        = some [⟨.Number, "1", "1", 0⟩, ⟨.Number, "-2", "-2", 0⟩,
                ⟨.Eof, "", "", 0⟩] ∧
    scan_line "1 + 2"
        = some [⟨.Number, "1", "1", 0⟩, ⟨.Plus, "+", "", 0⟩,
                ⟨.Number, "2", "2", 0⟩, ⟨.Eof, "", "", 0⟩] := by
  constructor <;> decide

/-- Claim C6, counterexample: scanning `andfunc for;  // comment` does not
yield a four-token sequence — there is no LineComment token kind at all; the
scan yields seven tokens. -/
theorem C6_counterexample :
    (scan_line "andfunc for;  // comment").map List.length = some 7 ∧
    (7 : Nat) ≠ 4 := by
  constructor <;> decide

/-- Claim C6 as amended: keyword matching is indeed whole-token — `andfunc`
lexes as a single Identifier, not as keyword `and` plus `func` — but the
trailing line comment is not surfaced as a LineComment token: a mid-line
`//` lexes as two Slash tokens and the comment text as an Identifier, and an
Eof token is appended. -/
theorem C6_keyword_whole_token_no_comment_token :
    scan_line "andfunc for;  // comment"
      = some [⟨.Identifier, "andfunc", "", 0⟩, ⟨.For, "for", "", 0⟩,
              ⟨.Semicolon, ";", "", 0⟩, ⟨.Slash, "/", "", 0⟩,
              ⟨.Slash, "/", "", 0⟩, ⟨.Identifier, "comment", "", 0⟩,
              ⟨.Eof, "", "", 0⟩] := by decide

/-- Claim C10, counterexample: the input `1e` does not begin with a
comment, yet `scan_line` does not return a non-empty Eof-terminated
sequence: nom's `float` hits the `cut(digit1)` in the exponent, the
resulting `Failure` aborts `many0`, and the source's `.unwrap()` panics
(modelled as `none`). -/
theorem C10_counterexample :
    "1e".data.take 2 ≠ ['/', '/'] ∧ scan_line "1e" = none := by
  constructor <;> decide

/-- Claim C10 as amended: if the input begins with `//`, at least one
non-newline character and a newline, `scan_line` returns the empty token
sequence (no comment token, no Eof marker); for every other input on which
`scan_line` returns at all (it panics on a nom `Failure`, e.g. on `1e`),
the returned sequence is non-empty and its last element is the Eof
token. -/
theorem C10_scan_line_shape (s : String) :
    (∀ mid rest, mid ≠ [] → '\n' ∉ mid →
        s.data = '/' :: '/' :: (mid ++ '\n' :: rest) → scan_line s = some []) ∧
    (∀ ts, scan_line s = some ts →
        (∀ mid rest, mid ≠ [] → '\n' ∉ mid →
            s.data ≠ '/' :: '/' :: (mid ++ '\n' :: rest)) →
        ts ≠ [] ∧ ts.getLast? = some ⟨.Eof, "", "", 0⟩) := by
  constructor
  · intro mid rest h1 h2 h3
    unfold scan_line
    rw [h3, comment_of_comment_shape mid rest h1 h2]
  · intro ts hts hno
    unfold scan_line at hts
    cases hc : comment s.data with
    | ok b r =>
      obtain ⟨mid, rest, h1, h2, h3⟩ := comment_ok_shape hc
      exact absurd h3 (hno mid rest h1 h2)
    | err =>
      rw [hc] at hts
      cases hm : many0_tokens (s.data.length + 1) s.data with
      | ok ts0 rem =>
        rw [hm] at hts
        simp only [Option.some.injEq] at hts
        subst hts
        exact ⟨by simp, List.getLast?_concat ts0⟩
      | err => rw [hm] at hts; simp at hts
      | fail => rw [hm] at hts; simp at hts
    | fail =>
      rw [hc] at hts
      cases hm : many0_tokens (s.data.length + 1) s.data with
      | ok ts0 rem =>
        rw [hm] at hts
        simp only [Option.some.injEq] at hts
        subst hts
        exact ⟨by simp, List.getLast?_concat ts0⟩
      | err => rw [hm] at hts; simp at hts
      | fail => rw [hm] at hts; simp at hts

/-- Claim C10 witness: the shape property applied to the concrete input
`x`, whose scan is one Identifier token followed by Eof. -/
theorem C10_scan_line_shape_witness :
    (([⟨.Identifier, "x", "", 0⟩, ⟨.Eof, "", "", 0⟩] : List Token) ≠ []) ∧
    ([⟨.Identifier, "x", "", 0⟩, ⟨.Eof, "", "", 0⟩] : List Token).getLast?
      = some ⟨.Eof, "", "", 0⟩ :=
  (C10_scan_line_shape "x").2 [⟨.Identifier, "x", "", 0⟩, ⟨.Eof, "", "", 0⟩]
    (by decide)
    (fun mid rest _ _ h3 => by
      have h4 : ('x' :: [] : List Char) = '/' :: '/' :: (mid ++ '\n' :: rest) := h3
      injection h4 with h5 _
      exact absurd h5 (by decide))

/-- Claim C9 witness: the termination bound applied to a concrete tree. -/
theorem C9_eval_terminates_witness :
    size (Expr.Binary (.NumberLiteral (.num 1)) .Plus
      (.Grouping (.NumberLiteral (.num 2)))) ≤ 4 ∧
    evalFuel 4 (Expr.Binary (.NumberLiteral (.num 1)) .Plus
      (.Grouping (.NumberLiteral (.num 2))))
      = some (eval (Expr.Binary (.NumberLiteral (.num 1)) .Plus
          (.Grouping (.NumberLiteral (.num 2))))) :=
  ⟨by decide, C9_eval_terminates _ 4 (by decide)⟩
